import Mathlib

/-
Verification development for the otakudesu scraping service.
The definitions below are a shallow embedding of the JavaScript source:
  - utils.js            (http client config, handleError, retryRequest,
                         generateCacheKey, isValidSlug, sanitizeQuery)
  - scraper module      (getSettledValue, getNonce, extractMirrorLinks,
                         fetchIframeUrl, getEpisodeStreaming)
  - routes module       (withCache, the /episode/:slug and /anime/:slug handlers)
Asynchronous effects (network calls, settled promises) are embedded by
passing each await-site outcome as an explicit argument; JavaScript
values are modelled by the inductive type Json with JavaScript
truthiness semantics.
-/

namespace Otakudesu

/-- Json models a JavaScript runtime value as far as the scraper code
inspects one: null, undefined, booleans, (integer) numbers, strings,
arrays and plain objects given as ordered key/value lists. -/
inductive Json where
  | jnull
  | jundefined
  | jbool (b : Bool)
  | jnum (n : Int)
  | jstr (s : String)
  | jarr (elems : List Json)
  | jobj (fields : List (String × Json))

/-- truthy models JavaScript boolean coercion: null, undefined, false,
0 and the empty string are falsy; every array and object is truthy. -/
def truthy : Json → Bool
  | .jnull => false
  | .jundefined => false
  | .jbool b => b
  | .jnum n => n != 0
  | .jstr s => s != ""
  | .jarr _ => true
  | .jobj _ => true

/-- isObj tells whether a value is a plain object (used by the route
cache guard, which only caches object results). -/
def isObj : Json → Bool
  | .jobj _ => true
  | _ => false

/-- lookupKey is JavaScript property access on an ordered field list:
the first binding of the key wins (object keys are unique, which the
update function setKey maintains). -/
def lookupKey {α : Type} (m : List (String × α)) (k : String) : Option α :=
  match m with
  | [] => none
  | (k', v) :: rest => if k' = k then some v else lookupKey rest k

/-- setKey is JavaScript property assignment obj[k] = v on an ordered
field list: an existing binding is overwritten in place, a new key is
appended at the end. -/
def setKey {α : Type} (m : List (String × α)) (k : String) (v : α) : List (String × α) :=
  match m with
  | [] => [(k, v)]
  | (k', v') :: rest => if k' = k then (k, v) :: rest else (k', v') :: setKey rest k v

/-- getField models the optional-chained field access body?.k: it
yields undefined when the value is not an object or lacks the key. -/
def getField (v : Json) (k : String) : Json :=
  match v with
  | .jobj fields =>
    match lookupKey fields k with
    | some x => x
    | none => .jundefined
  | _ => .jundefined

/-- isWs recognises the whitespace characters relevant to the trim
calls in the source (space, tab, newline, carriage return). -/
def isWs (c : Char) : Bool := c = ' ' || c = '\t' || c = '\n' || c = '\r'

/-- trimChars strips leading and trailing whitespace from a character
list. -/
def trimChars (l : List Char) : List Char :=
  ((l.dropWhile isWs).reverse.dropWhile isWs).reverse

/-- jsTrim models String.prototype.trim on the strings the scraper
handles. -/
def jsTrim (s : String) : String := String.mk (trimChars s.data)

/-- toLowerStr models String.prototype.toLowerCase on ASCII data, as
used by handleError. -/
def toLowerStr (s : String) : String := String.mk (s.data.map Char.toLower)

/-- hasPre tests whether the first list is a leading segment of the
second (helper for the substring test behind String.prototype.includes). -/
def hasPre : List Char → List Char → Bool
  | [], _ => true
  | _ :: _, [] => false
  | a :: as, b :: bs => a = b && hasPre as bs

/-- hasSub tests whether the first list occurs contiguously inside the
second (String.prototype.includes on character lists). -/
def hasSub (needle : List Char) : List Char → Bool
  | [] => hasPre needle []
  | b :: rest => hasPre needle (b :: rest) || hasSub needle rest

/-- strIncludes models hay.includes(needle) for strings. -/
def strIncludes (hay needle : String) : Bool := hasSub needle.data hay.data

/-- JsError models the error objects the source inspects: a message,
an optional code (such as ECONNABORTED) and, for axios HTTP errors,
the response status. -/
structure JsError where
  message : String
  code : Option String
  responseStatus : Option Nat
deriving DecidableEq

/-- HttpResp models a resolved axios response: HTTP status plus the
parsed response body. -/
structure HttpResp where
  status : Nat
  body : Json

/-- validateStatus is the axios client option from utils.js line 12:
the request promise resolves exactly when the status is below 500,
and rejects (with error.response set) otherwise. -/
def validateStatus (status : Nat) : Bool := status < 500

/-- ErrInfo is the standardized pair produced by handleError. -/
structure ErrInfo where
  status : Nat
  message : String
deriving DecidableEq

/-- handleError embeds utils.handleError (utils.js lines 76-89): the
timeout check first, then the response-status cases, then the
not-found message test, then the 500 fallback. A response whose status
is below 400 falls through to the message test, exactly as in the
source. -/
def handleError (e : JsError) : ErrInfo :=
  if e.code = some "ECONNABORTED" || strIncludes e.message "timeout" then
    ⟨408, "Request Timeout: The target server took too long to respond."⟩
  else
    match e.responseStatus with
    | some s =>
      if s = 404 then ⟨404, "Content Not Found on the target server."⟩
      else if 400 ≤ s then ⟨s, "The target server responded with status " ++ toString s ++ "."⟩
      else if strIncludes (toLowerStr e.message) "not found" then ⟨404, "Content Not Found"⟩
      else ⟨500, "Internal Server Error"⟩
    | none =>
      if strIncludes (toLowerStr e.message) "not found" then ⟨404, "Content Not Found"⟩
      else ⟨500, "Internal Server Error"⟩

/-- slugChar is the character class [a-zA-Z0-9\-_] of the slug
pattern and the cache-key sanitizer. -/
def slugChar (c : Char) : Bool :=
  ('a' ≤ c && c ≤ 'z') || ('A' ≤ c && c ≤ 'Z') || ('0' ≤ c && c ≤ '9') || c = '-' || c = '_'

/-- slugMatches is the regular-expression test sha-ZA-Z0-9 dash underscore
anchored on both sides: nonempty and every character in the class. -/
def slugMatches (s : String) : Bool := s.data ≠ [] && s.data.all slugChar

/-- isValidSlug embeds utils.isValidSlug (utils.js lines 98-100): the
argument must be truthy, a string, and match the anchored slug
pattern; the result is the truthiness of the JavaScript expression. -/
def isValidSlug (slug : Json) : Bool :=
  match slug with
  | .jstr s => truthy (.jstr s) && slugMatches s
  | _ => false

/-- joinColon is Array.prototype.join with separator colon. -/
def joinColon : List String → String
  | [] => ""
  | [s] => s
  | s :: rest => s ++ ":" ++ joinColon rest

/-- joinCommaStr is Array.prototype.join with the default comma
separator, used by the String() coercion of arrays. -/
def joinCommaStr : List String → String
  | [] => ""
  | [s] => s
  | s :: rest => s ++ "," ++ joinCommaStr rest

mutual

/-- jsToString models the String(arg) coercion: null and undefined
print their names, numbers and booleans print canonically, arrays
join their coerced elements with commas (null and undefined elements
become empty, per Array.prototype.join), and plain objects print as
[object Object]. -/
def jsToString : Json → String
  | .jnull => "null"
  | .jundefined => "undefined"
  | .jbool true => "true"
  | .jbool false => "false"
  | .jnum n => toString n
  | .jstr s => s
  | .jarr xs => joinCommaStr (jsToStringArr xs)
  | .jobj _ => "[object Object]"

/-- jsToStringArr coerces the elements of an array for joining, with
the join-specific rule that null and undefined become the empty
string. -/
def jsToStringArr : List Json → List String
  | [] => []
  | .jnull :: rest => "" :: jsToStringArr rest
  | .jundefined :: rest => "" :: jsToStringArr rest
  | v :: rest => jsToString v :: jsToStringArr rest

end

/-- isNullish is the loose comparison arg != null, true exactly for
null and undefined. -/
def isNullish : Json → Bool
  | .jnull => true
  | .jundefined => true
  | _ => false

/-- sanitizeArg replaces every character outside [a-zA-Z0-9\-_] by an
underscore, the per-argument step of generateCacheKey. -/
def sanitizeArg (s : String) : String :=
  String.mk (s.data.map (fun c => if slugChar c then c else '_'))

/-- generateCacheKey embeds utils.generateCacheKey (utils.js lines
54-59): drop null and undefined arguments, coerce the rest with
String(), sanitize each, and join them after the colon-terminated
prefix. -/
def generateCacheKey (pre : String) (args : List Json) : String :=
  let sanitizedArgs := (args.filter (fun a => !isNullish a)).map (fun a => sanitizeArg (jsToString a))
  pre ++ ":" ++ joinColon sanitizedArgs

/-- noRetryStatus is the guard of the immediate rethrow in
retryRequest: error.response?.status >= 400 and distinct from 429;
an error without a response status fails the guard and is retried. -/
def noRetryStatus (e : JsError) : Bool :=
  match e.responseStatus with
  | some s => decide (400 ≤ s ∧ s ≠ 429)
  | none => false

/-- RetryTrace records one run of the retry loop: the final outcome,
how many times the request function was invoked, and the sequence of
back-off waits (in milliseconds) performed between attempts. -/
structure RetryTrace (α : Type) where
  result : Except JsError α
  calls : Nat
  waits : List Nat

/-- retryRun embeds the loop body of utils.retryRequest (utils.js
lines 121-135): attempt i runs the request function; on success the
value is returned; on failure the error is rethrown when the retry
budget is exhausted or when noRetryStatus holds, and otherwise the
loop waits delay * (i + 1) and retries. The request function is
embedded as a map from attempt index to that attempt's outcome. -/
def retryRun {α : Type} (fn : Nat → Except JsError α) (delay i remaining : Nat) : RetryTrace α :=
  match fn i with
  | .ok v => ⟨.ok v, 1, []⟩
  | .error e =>
    match remaining with
    | 0 => ⟨.error e, 1, []⟩
    | r + 1 =>
      if noRetryStatus e then ⟨.error e, 1, []⟩
      else
        let rest := retryRun fn delay (i + 1) r
        ⟨rest.result, rest.calls + 1, delay * (i + 1) :: rest.waits⟩

/-- retryRequest embeds utils.retryRequest: the loop starts at attempt
0 with maxRetries retries remaining (the source defaults are
maxRetries = 2, delay = 1000). -/
def retryRequest {α : Type} (fn : Nat → Except JsError α) (maxRetries delay : Nat) : RetryTrace α :=
  retryRun fn delay 0 maxRetries

/-- Settled models one entry of a Promise.allSettled result: either a
fulfilled value or a rejection reason. -/
inductive Settled (α : Type) where
  | fulfilled (v : α)
  | rejected (reason : String)

/-- getSettledValue embeds the scraper helper (scraper module lines
15-21): a fulfilled promise yields its value unless that value is
falsy, in which case the default is substituted; a rejected promise
yields the default. -/
def getSettledValue (sp : Settled Json) (defaultValue : Json) : Json :=
  match sp with
  | .fulfilled v => if truthy v then v else defaultValue
  | .rejected _ => defaultValue

/-- getSettledObj is getSettledValue specialised to branches whose
fulfilled values are arrays or objects: those are always truthy in
JavaScript, so the value || default expression always keeps the
value; a rejection yields the default. The mirrors and downloads
branches of getEpisodeStreaming are consumed this way. -/
def getSettledObj {α : Type} (sp : Settled α) (defaultValue : α) : α :=
  match sp with
  | .fulfilled v => v
  | .rejected _ => defaultValue

/-- getNonce embeds scrapers.getNonce (scraper module lines 251-263).
The await on httpClient.post is embedded as the outcome argument: a
rejected promise (network error, or a status of at least 500 which
validateStatus turns into a rejection) lands in the catch block and
yields null; a resolved response yields its body's data field when
that field is truthy and null otherwise (data?.data || null). -/
def getNonce (outcome : Except JsError HttpResp) : Json :=
  match outcome with
  | .error _ => .jnull
  | .ok resp =>
    let d := getField resp.body "data"
    if truthy d then d else .jnull

/-- MirrorAnchor is one anchor element inside a quality panel of the
mirrorstream section: its link text and its data-content attribute
when present. -/
structure MirrorAnchor where
  text : String
  dataContent : Option String

/-- QualityTab is one tab of the mirrorstream section: the tab label
(the quality, still untrimmed) together with the anchors of the panel
the tab's href points at. -/
structure QualityTab where
  quality : String
  anchors : List MirrorAnchor

/-- Mirror is one output entry of the quality aggregator: the trimmed
anchor text and the resolved URL, null (none) when resolution
failed. -/
structure Mirror where
  name : String
  url : Option String
deriving DecidableEq

/-- contentTruthy tells whether the anchor has a truthy data-content
attribute, i.e. whether it carries an encoded payload and thus forms
a MirrorDescriptor in the sense of the specification. -/
def contentTruthy (a : MirrorAnchor) : Bool :=
  match a.dataContent with
  | some c => c != ""
  | none => false

/-- mirrorEntry embeds the per-anchor closure of extractMirrorLinks
(scraper module lines 283-288): an anchor without truthy data-content
maps to null (later removed by filter(Boolean)); otherwise the
resolver is awaited and an entry with the trimmed text and the
resolved URL (possibly null) is produced. The fetchIframeUrl call is
embedded as the resolveUrl argument, a map from payload content to
that call's outcome; fetchIframeUrl never throws. -/
def mirrorEntry (resolveUrl : String → Option String) (a : MirrorAnchor) : Option Mirror :=
  match a.dataContent with
  | none => none
  | some c => if c = "" then none else some ⟨jsTrim a.text, resolveUrl c⟩

/-- contentVal is the data-content attribute of an anchor, defaulting
to the empty string; on anchors passing contentTruthy it is exactly
the encoded payload handed to the resolver. -/
def contentVal (a : MirrorAnchor) : String := a.dataContent.getD ""

/-- extractMirrorLinks embeds scrapers.extractMirrorLinks (scraper
module lines 272-299). It first awaits getNonce (embedded by the
nonce outcome argument); a falsy nonce short-circuits to the empty
array. Otherwise every tab contributes the binding
mirrorsByQuality[quality] = entries, where entries are the non-null
results of mirrorEntry in page order. The resulting object is
modelled as the ordered field list built by setKey. -/
def extractMirrorLinks (nonceOutcome : Except JsError HttpResp) (tabs : List QualityTab)
    (resolveUrl : String → Option String) : List (String × List Mirror) :=
  let nonce := getNonce nonceOutcome
  if truthy nonce then
    tabs.foldl (fun acc tab => setKey acc (jsTrim tab.quality) (tab.anchors.filterMap (mirrorEntry resolveUrl))) []
  else []

/-- DownloadEntry is one provider/URL pair of the download section. -/
structure DownloadEntry where
  provider : String
  url : Option String

/-- EpisodePage is the parsed episode document as far as
getEpisodeStreaming reads it: the raw text of the first .venutama h1
heading and the src attribute of the first iframe. -/
structure EpisodePage where
  titleRaw : String
  iframeSrc : Option String

/-- StreamingResult is the object getEpisodeStreaming returns. -/
structure StreamingResult where
  title : String
  iframe : Option String
  mirrors : List (String × List Mirror)
  downloads : List (String × List DownloadEntry)

/-- episodeNotFoundError is the Error thrown at scraper module line
226: a bare Error with message Episode not found, no code and no
attached response. -/
def episodeNotFoundError : JsError := ⟨"Episode not found", none, none⟩

/-- getEpisodeStreaming embeds scrapers.getEpisodeStreaming (scraper
module lines 219-244) from the point where the episode document has
been fetched and parsed. The trimmed heading text is the title; when
it is empty an Error with message Episode not found is thrown (and
rethrown unchanged by the catch block). Otherwise the three settled
branches (nonce, mirror links, download links), embedded as Settled
arguments, are merged: the nonce result is destructured but unused,
and the mirrors and downloads branches fall back to an empty array
respectively empty object on rejection. -/
def getEpisodeStreaming (page : EpisodePage) (_nonceS : Settled Json)
    (mirrorS : Settled (List (String × List Mirror)))
    (downloadS : Settled (List (String × List DownloadEntry))) :
    Except JsError StreamingResult :=
  let title := jsTrim page.titleRaw
  if title = "" then .error episodeNotFoundError
  else .ok {
    title := title
    iframe := page.iframeSrc
    mirrors := getSettledObj mirrorS []
    downloads := getSettledObj downloadS [] }

/-- b64Char is the standard base64 alphabet indexed 0..63
(A-Z, a-z, 0-9, plus, slash). -/
def b64Char (n : Nat) : Char :=
  if n < 26 then Char.ofNat (65 + n)
  else if n < 52 then Char.ofNat (97 + (n - 26))
  else if n < 62 then Char.ofNat (48 + (n - 52))
  else if n = 62 then '+'
  else '/'

/-- b64Index inverts the base64 alphabet; padding and foreign
characters yield none and are skipped by the decoder, matching the
lenient Buffer.from(s, base64) behaviour of Node. -/
def b64Index (c : Char) : Option Nat :=
  if 'A' ≤ c && c ≤ 'Z' then some (c.toNat - 65)
  else if 'a' ≤ c && c ≤ 'z' then some (c.toNat - 97 + 26)
  else if '0' ≤ c && c ≤ '9' then some (c.toNat - 48 + 52)
  else if c = '+' then some 62
  else if c = '/' then some 63
  else none

/-- bytesToSextets regroups a byte sequence into 6-bit values, the
bit-packing step of base64 encoding (a trailing byte yields two
sextets, two trailing bytes yield three). -/
def bytesToSextets : List Nat → List Nat
  | [] => []
  | [a] => [a / 4, (a % 4) * 16]
  | [a, b] => [a / 4, (a % 4) * 16 + b / 16, (b % 16) * 4]
  | a :: b :: c :: rest =>
    (a / 4) :: ((a % 4) * 16 + b / 16) :: ((b % 16) * 4 + c / 64) :: (c % 64) :: bytesToSextets rest

/-- sextetsToBytes repacks 6-bit values into bytes, the bit-unpacking
step of base64 decoding (two sextets yield one byte, three yield
two). -/
def sextetsToBytes : List Nat → List Nat
  | s1 :: s2 :: s3 :: s4 :: rest =>
    (s1 * 4 + s2 / 16) :: ((s2 % 16) * 16 + s3 / 4) :: ((s3 % 4) * 64 + s4) :: sextetsToBytes rest
  | [s1, s2, s3] => [s1 * 4 + s2 / 16, (s2 % 16) * 16 + s3 / 4]
  | [s1, s2] => [s1 * 4 + s2 / 16]
  | [_] => []
  | [] => []

/-- base64encodeBytes is standard base64 of a byte sequence: the
sextets through the alphabet plus the usual padding to a multiple of
four characters. -/
def base64encodeBytes (l : List Nat) : List Char :=
  (bytesToSextets l).map b64Char ++ List.replicate ((3 - l.length % 3) % 3) '='

/-- base64decodeBytes models Buffer.from(s, base64): every character
outside the alphabet (including padding) is skipped, the rest are
unpacked into bytes; it never throws. -/
def base64decodeBytes (cs : List Char) : List Nat :=
  sextetsToBytes (cs.filterMap b64Index)

/-- asciiDecode models Buffer.prototype.toString with utf-8 encoding
on the ASCII range the scraped data lives in: bytes below 128 decode
to themselves and other bytes to the replacement character; it never
throws. -/
def asciiDecode (bytes : List Nat) : List Char :=
  bytes.map (fun b => if b < 128 then Char.ofNat b else Char.ofNat 0xFFFD)

/-- utf8BytesAscii models Buffer.from(s, utf-8) for strings whose
characters are all ASCII: each character is its own byte. -/
def utf8BytesAscii (s : String) : List Nat := s.data.map Char.toNat

/-- srcAt attempts the pattern src="([^"]+)" at the head of the
character list: the literal src=" followed by at least one non-quote
character and a closing quote; the capture group is returned. -/
def srcAt (l : List Char) : Option (List Char) :=
  if hasPre ['s', 'r', 'c', '=', '"'] l then
    let rest := l.drop 5
    let cap := rest.takeWhile (fun c => c ≠ '"')
    match rest.dropWhile (fun c => c ≠ '"') with
    | '"' :: _ => if cap = [] then none else some cap
    | _ => none
  else none

/-- scanSrc models html.match with the regex src="([^"]+)": the
pattern is attempted at each position from the left and the first
full match yields its capture group. -/
def scanSrc : List Char → Option (List Char)
  | [] => none
  | c :: rest =>
    match srcAt (c :: rest) with
    | some cap => some cap
    | none => scanSrc rest

/-- fetchIframeUrl embeds scrapers.fetchIframeUrl (scraper module
lines 328-358). The JSON.parse of the base64-decoded data-content is
embedded as the parsed argument (its error case is a thrown
SyntaxError, caught by the surrounding try and turned into null); a
parse success of any JSON value, object or not, is spread into the
request body and the POST proceeds. The POST outcome is the second
argument; a rejection is caught and yields null. On a resolved
response, a falsy data field yields null; a truthy string data field
is base64-decoded to an HTML fragment whose first src="..." match is
returned, null when there is none. A truthy non-string data field
makes Buffer.from throw, which the catch also turns into null. -/
def fetchIframeUrl (parsed : Except JsError Json) (postOutcome : Except JsError HttpResp) :
    Option String :=
  match parsed with
  | .error _ => none
  | .ok _payload =>
    match postOutcome with
    | .error _ => none
    | .ok resp =>
      let d := getField resp.body "data"
      if truthy d then
        match d with
        | .jstr sdata =>
          match scanSrc (asciiDecode (base64decodeBytes sdata.data)) with
          | some cap => some (String.mk cap)
          | none => none
        | _ => none
      else none

/-- encodePair serialises one key/value pair the way JSON.stringify
does for string values that need no escaping. -/
def encodePair (kv : String × String) : List Char :=
  '"' :: kv.1.data ++ '"' :: ':' :: '"' :: kv.2.data ++ ['"']

/-- jsonBody is the comma-separated member list of a JSON.stringify
rendering of a flat string-to-string object. -/
def jsonBody : List (String × String) → List Char
  | [] => []
  | [kv] => encodePair kv
  | kv :: rest => encodePair kv ++ ',' :: jsonBody rest

/-- serializeFlat is JSON.stringify of a flat string-to-string object
whose keys and values need no escaping: the members wrapped in
braces. -/
def serializeFlat (m : List (String × String)) : String :=
  String.mk ('\x7b' :: jsonBody m ++ ['\x7d'])

/-- parseStringLit parses a leading JSON string literal without
escapes: an opening quote, the longest run of non-quote characters,
and a closing quote; it returns the content and the remaining
input. -/
def parseStringLit (l : List Char) : Option (List Char × List Char) :=
  match l with
  | '"' :: rest =>
    (match rest.dropWhile (fun c => c ≠ '"') with
     | '"' :: r3 => some (rest.takeWhile (fun c => c ≠ '"'), r3)
     | _ => none)
  | _ => none

/-- parseMembers parses the nonempty member list of a flat JSON
object followed by the closing brace at the very end of the input;
the fuel argument bounds the recursion by the number of members. -/
def parseMembers : Nat → List Char → Option (List (String × String))
  | 0, _ => none
  | fuel + 1, l =>
    match parseStringLit l with
    | none => none
    | some (k, r1) =>
      match r1 with
      | ':' :: r2 =>
        (match parseStringLit r2 with
         | none => none
         | some (v, r3) =>
           match r3 with
           | ',' :: r4 => (parseMembers fuel r4).map (fun ps => (String.mk k, String.mk v) :: ps)
           | ['\x7d'] => some [(String.mk k, String.mk v)]
           | _ => none)
      | _ => none

/-- parseFlat models JSON.parse restricted to the grammar
JSON.stringify emits for flat string-to-string objects (no
whitespace, no escapes): the whole input must be one object and
trailing input is rejected; none models a thrown SyntaxError. -/
def parseFlat (s : String) : Option (List (String × String)) :=
  match s.data with
  | '\x7b' :: '\x7d' :: rest => if rest.isEmpty then some [] else none
  | '\x7b' :: rest => parseMembers rest.length rest
  | _ => none

/-- decodePayload is the payload decoder of fetchIframeUrl (scraper
module line 330) on the flat-object domain: base64-decode the token,
decode the bytes as text, parse the text as a JSON object. -/
def decodePayload (content : String) : Option (List (String × String)) :=
  parseFlat (String.mk (asciiDecode (base64decodeBytes content.data)))

/-- asciiSafe singles out the strings whose JSON serialisation needs
no escapes and is pure ASCII: printable ASCII without the quote and
backslash characters. -/
def asciiSafe (s : String) : Bool :=
  s.data.all (fun c => 32 ≤ c.toNat && c.toNat < 127 && c ≠ '"' && c ≠ '\\')

/-- Action records the externally visible steps a route handler
takes, in order: cache reads, upstream scraper invocations, and cache
writes. -/
inductive Action where
  | cacheRead (key : String)
  | upstreamCall
  | cacheWrite (key : String)
deriving DecidableEq

/-- RouteResponse is the HTTP response a handler sends. -/
structure RouteResponse where
  status : Nat
  body : Json

/-- withCache embeds the route wrapper (routes module lines 17-46):
read the cache, serve a truthy cached value as-is; on a miss run the
scraper (embedded as the upstream outcome argument), cache the result
only when it is a truthy object with a truthy success field, and send
it; a thrown error is mapped through handleError into a status and an
error body. -/
def withCache (key : String) (cache : String → Option Json)
    (upstream : Except JsError Json) (now : String) : RouteResponse × List Action :=
  let hit : Option Json :=
    match cache key with
    | some v => if truthy v then some v else none
    | none => none
  match hit with
  | some cached => (⟨200, cached⟩, [.cacheRead key])
  | none =>
    match upstream with
    | .ok result =>
      if truthy result && isObj result && truthy (getField result "success") then
        (⟨200, result⟩, [.cacheRead key, .upstreamCall, .cacheWrite key])
      else
        (⟨200, result⟩, [.cacheRead key, .upstreamCall])
    | .error e =>
      let info := handleError e
      (⟨info.status, .jobj [("error", .jstr info.message), ("success", .jbool false), ("timestamp", .jstr now)]⟩,
       [.cacheRead key, .upstreamCall])

/-- episodeRoute embeds the GET /episode/:slug handler (routes module
lines 146-160): an invalid slug is answered immediately with 400 and
an error body, before the cache key is even built; otherwise the
request runs through withCache under the episode cache key. -/
def episodeRoute (slug : Json) (cache : String → Option Json)
    (upstream : Except JsError Json) (now : String) : RouteResponse × List Action :=
  if !isValidSlug slug then
    (⟨400, .jobj [("error", .jstr "Invalid episode slug"), ("success", .jbool false)]⟩, [])
  else
    withCache (generateCacheKey "episode" [slug]) cache upstream now

/-- animeRoute embeds the GET /anime/:slug handler (routes module
lines 129-143), identical in shape to episodeRoute with the anime
cache key and message. -/
def animeRoute (slug : Json) (cache : String → Option Json)
    (upstream : Except JsError Json) (now : String) : RouteResponse × List Action :=
  if !isValidSlug slug then
    (⟨400, .jobj [("error", .jstr "Invalid anime slug"), ("success", .jbool false)]⟩, [])
  else
    withCache (generateCacheKey "anime" [slug]) cache upstream now

/-- lookupKey finds the binding just written by setKey. -/
theorem lookupKey_setKey_self {α : Type} (m : List (String × α)) (k : String) (v : α) :
    lookupKey (setKey m k v) k = some v := by
  induction m with
  | nil => simp [setKey, lookupKey]
  | cons p rest ih =>
    obtain ⟨k', v'⟩ := p
    by_cases h : k' = k <;> simp [setKey, lookupKey, h, ih]

/-- setKey at one key leaves lookups of any other key unchanged. -/
theorem lookupKey_setKey_other {α : Type} (m : List (String × α)) (k k' : String) (v : α)
    (h : k' ≠ k) : lookupKey (setKey m k' v) k = lookupKey m k := by
  induction m with
  | nil => simp [setKey, lookupKey, h]
  | cons p rest ih =>
    obtain ⟨k0, v0⟩ := p
    by_cases h0 : k0 = k' <;> simp [setKey, lookupKey, h0, h, ih]

/-- Folding setKey over entries whose keys avoid k does not disturb
the binding of k. -/
theorem lookupKey_foldl_setKey_skip {α β : Type} (key : β → String) (val : β → α)
    (l : List β) (acc : List (String × α)) (k : String) (hk : k ∉ l.map key) :
    lookupKey (l.foldl (fun m t => setKey m (key t) (val t)) acc) k = lookupKey acc k := by
  induction l generalizing acc with
  | nil => rfl
  | cons t rest ih =>
    simp only [List.map_cons, List.mem_cons] at hk
    push_neg at hk
    simp only [List.foldl_cons]
    rw [ih _ hk.2, lookupKey_setKey_other _ _ _ _ (fun h => hk.1 h.symm)]

/-- Folding setKey over entries with pairwise distinct keys binds each
entry's key to its value. -/
theorem lookupKey_foldl_setKey_mem {α β : Type} (key : β → String) (val : β → α)
    (l : List β) (acc : List (String × α)) (t : β) (ht : t ∈ l) (hnd : (l.map key).Nodup) :
    lookupKey (l.foldl (fun m t => setKey m (key t) (val t)) acc) (key t) = some (val t) := by
  induction l generalizing acc with
  | nil => cases ht
  | cons t0 rest ih =>
    simp only [List.map_cons, List.nodup_cons] at hnd
    rcases List.mem_cons.mp ht with h | h
    · subst h
      simp only [List.foldl_cons]
      rw [lookupKey_foldl_setKey_skip _ _ _ _ _ hnd.1, lookupKey_setKey_self]
    · simp only [List.foldl_cons]
      exact ih _ h hnd.2

/-- The non-null mirror entries of a tier are exactly one entry per
anchor with truthy data-content, carrying the trimmed anchor text and
the resolver outcome on that anchor's payload. -/
theorem filterMap_mirrorEntry (r : String → Option String) (l : List MirrorAnchor) :
    l.filterMap (mirrorEntry r) =
      (l.filter contentTruthy).map (fun a => ⟨jsTrim a.text, r (contentVal a)⟩) := by
  induction l with
  | nil => rfl
  | cons a rest ih =>
    cases h : a.dataContent with
    | none => simp [List.filterMap_cons, List.filter_cons, mirrorEntry, contentTruthy, h, ih]
    | some c =>
      by_cases hc : c = "" <;>
        simp [List.filterMap_cons, List.filter_cons, mirrorEntry, contentTruthy, contentVal, h, hc, ih]

/-- retryRun_ok is the loop equation for a successful attempt. -/
theorem retryRun_ok {α : Type} (fn : Nat → Except JsError α) (delay i remaining : Nat) (v : α)
    (h : fn i = .ok v) : retryRun fn delay i remaining = ⟨.ok v, 1, []⟩ := by
  rw [retryRun.eq_def, h]

/-- retryRun_err0 is the loop equation for a failure with exhausted
budget. -/
theorem retryRun_err0 {α : Type} (fn : Nat → Except JsError α) (delay i : Nat) (e : JsError)
    (h : fn i = .error e) : retryRun fn delay i 0 = ⟨.error e, 1, []⟩ := by
  rw [retryRun.eq_def, h]

/-- retryRun_errS is the loop equation for a failure with budget
left: rethrow on a no-retry status, otherwise wait and retry. -/
theorem retryRun_errS {α : Type} (fn : Nat → Except JsError α) (delay i r : Nat) (e : JsError)
    (h : fn i = .error e) :
    retryRun fn delay i (r + 1) =
      if noRetryStatus e then ⟨.error e, 1, []⟩
      else
        ⟨(retryRun fn delay (i + 1) r).result, (retryRun fn delay (i + 1) r).calls + 1,
          delay * (i + 1) :: (retryRun fn delay (i + 1) r).waits⟩ := by
  rw [retryRun.eq_def, h]

/-- The retry loop makes at least one attempt. -/
theorem retryRun_calls_pos {α : Type} (fn : Nat → Except JsError α) (delay i remaining : Nat) :
    1 ≤ (retryRun fn delay i remaining).calls := by
  cases h : fn i with
  | ok v => rw [retryRun_ok fn delay i remaining v h]
  | error e =>
    cases remaining with
    | zero => rw [retryRun_err0 fn delay i e h]
    | succ r =>
      rw [retryRun_errS fn delay i r e h]
      by_cases hn : noRetryStatus e <;> simp [hn]

/-- The retry loop makes at most remaining + 1 attempts. -/
theorem retryRun_calls_le {α : Type} (fn : Nat → Except JsError α) (delay i remaining : Nat) :
    (retryRun fn delay i remaining).calls ≤ remaining + 1 := by
  induction remaining generalizing i with
  | zero =>
    cases h : fn i with
    | ok v => rw [retryRun_ok fn delay i 0 v h]
    | error e => rw [retryRun_err0 fn delay i e h]
  | succ r ih =>
    cases h : fn i with
    | ok v => rw [retryRun_ok fn delay i (r + 1) v h]; exact Nat.succ_le_succ (Nat.zero_le _)
    | error e =>
      rw [retryRun_errS fn delay i r e h]
      by_cases hn : noRetryStatus e <;> simp only [hn, if_true, if_false]
      · omega
      · have := ih (i + 1)
        simp only [Bool.false_eq_true, if_false]
        omega

/-- The waits of a retry run are exactly delay * (attempt + 1) for
each non-final attempt, in order: linear backoff. -/
theorem retryRun_waits {α : Type} (fn : Nat → Except JsError α) (delay i remaining : Nat) :
    (retryRun fn delay i remaining).waits =
      (List.range ((retryRun fn delay i remaining).calls - 1)).map (fun k => delay * (i + k + 1)) := by
  induction remaining generalizing i with
  | zero =>
    cases h : fn i with
    | ok v => rw [retryRun_ok fn delay i 0 v h]; rfl
    | error e => rw [retryRun_err0 fn delay i e h]; rfl
  | succ r ih =>
    cases h : fn i with
    | ok v => rw [retryRun_ok fn delay i (r + 1) v h]; rfl
    | error e =>
      rw [retryRun_errS fn delay i r e h]
      by_cases hn : noRetryStatus e
      · simp only [hn, if_true]; rfl
      · simp only [hn, Bool.false_eq_true, if_false, Nat.add_sub_cancel]
        have hpos := retryRun_calls_pos fn delay (i + 1) r
        rw [ih (i + 1)]
        obtain ⟨c, hc⟩ : ∃ c, (retryRun fn delay (i + 1) r).calls = c + 1 :=
          ⟨(retryRun fn delay (i + 1) r).calls - 1, by omega⟩
        rw [hc, Nat.add_sub_cancel, List.range_succ_eq_map]
        simp only [List.map_cons, List.map_map, List.cons.injEq]
        constructor
        · ring_nf
        · exact List.map_congr_left
            (fun k _ => by simp only [Function.comp_apply, Nat.succ_eq_add_one]; ring)

/-- An error carrying a no-retry status is rethrown at once: one
attempt, no waits, the error itself as result. -/
theorem retryRun_noRetry {α : Type} (fn : Nat → Except JsError α) (delay i remaining : Nat)
    (e : JsError) (hf : fn i = .error e) (hn : noRetryStatus e = true) :
    retryRun fn delay i remaining = ⟨.error e, 1, []⟩ := by
  cases remaining with
  | zero => rw [retryRun_err0 fn delay i e hf]
  | succ r => rw [retryRun_errS fn delay i r e hf, if_pos hn]

/-- When every attempt fails and no failure short-circuits, the loop
runs all remaining + 1 attempts and rethrows the last error. -/
theorem retryRun_exhaust {α : Type} (fn : Nat → Except JsError α) (delay : Nat)
    (errs : Nat → JsError) :
    ∀ remaining i, (∀ j, j ≤ remaining → fn (i + j) = .error (errs (i + j))) →
    (∀ j, j < remaining → noRetryStatus (errs (i + j)) = false) →
    (retryRun fn delay i remaining).result = .error (errs (i + remaining)) ∧
      (retryRun fn delay i remaining).calls = remaining + 1 := by
  intro remaining
  induction remaining with
  | zero =>
    intro i h _
    have h0 := h 0 (Nat.le_refl 0)
    simp only [Nat.add_zero] at h0 ⊢
    rw [retryRun_err0 fn delay i _ h0]
    exact ⟨rfl, rfl⟩
  | succ r ih =>
    intro i h hn
    have h0 := h 0 (Nat.zero_le _)
    have hn0 := hn 0 (Nat.succ_pos r)
    simp only [Nat.add_zero] at h0 hn0
    have step := ih (i + 1)
      (fun j hj => by
        have := h (j + 1) (by omega)
        rwa [show i + (j + 1) = i + 1 + j by omega] at this)
      (fun j hj => by
        have := hn (j + 1) (by omega)
        rwa [show i + (j + 1) = i + 1 + j by omega] at this)
    rw [retryRun_errS fn delay i r _ h0, if_neg (by simp [hn0])]
    rw [show i + (r + 1) = i + 1 + r by omega]
    exact ⟨step.1, by simp [step.2]⟩

/-- C6: retryRequest invokes the request function at most
1 + maxRetries times (so at most 2 extra attempts at the source
default maxRetries = 2); the waits between attempts are exactly
delay * (attemptIndex + 1), linear backoff; an attempt that fails
with a response status in the 4xx range other than 429 is rethrown
immediately, with a single invocation and no wait, from any point of
the loop; and when every attempt fails without short-circuiting the
loop performs all maxRetries retries and rethrows the last error. -/
theorem retryRequest_spec {α : Type} (fn : Nat → Except JsError α) (maxRetries delay : Nat) :
    (retryRequest fn maxRetries delay).calls ≤ 1 + maxRetries
    ∧ (retryRequest fn maxRetries delay).waits =
        (List.range ((retryRequest fn maxRetries delay).calls - 1)).map (fun k => delay * (k + 1))
    ∧ (∀ i r e s, fn i = .error e → e.responseStatus = some s → 400 ≤ s → s < 500 → s ≠ 429 →
        retryRun fn delay i r = ⟨.error e, 1, []⟩)
    ∧ (∀ errs : Nat → JsError, (∀ j, j ≤ maxRetries → fn j = .error (errs j)) →
        (∀ j, j < maxRetries → noRetryStatus (errs j) = false) →
        (retryRequest fn maxRetries delay).result = .error (errs maxRetries) ∧
          (retryRequest fn maxRetries delay).calls = maxRetries + 1) := by
  refine ⟨?_, ?_, ?_, ?_⟩
  · have := retryRun_calls_le fn delay 0 maxRetries
    simpa [retryRequest, Nat.add_comm] using this
  · have := retryRun_waits fn delay 0 maxRetries
    simpa [retryRequest, Nat.zero_add] using this
  · intro i r e s hf hst h400 _ h429
    exact retryRun_noRetry fn delay i r e hf (by simp [noRetryStatus, hst]; omega)
  · intro errs hall hretr
    have := retryRun_exhaust fn delay errs maxRetries 0
      (fun j hj => by simpa using hall j hj)
      (fun j hj => by simpa using hretr j hj)
    simpa [retryRequest] using this

/-- C6 witness: a request that always fails with HTTP 404 is invoked
exactly once and its error is rethrown with no waits. -/
theorem retryRequest_spec_witness :
    retryRun (fun _ => (.error ⟨"Request failed with status code 404", none, some 404⟩ :
        Except JsError Json)) 1000 0 2 =
      ⟨.error ⟨"Request failed with status code 404", none, some 404⟩, 1, []⟩
    ∧ (retryRequest (fun _ => (.error ⟨"Request failed with status code 404", none, some 404⟩ :
        Except JsError Json)) 2 1000).calls ≤ 1 + 2 :=
  ⟨((retryRequest_spec (fun _ => .error ⟨"Request failed with status code 404", none, some 404⟩)
      2 1000).2.2.1 0 2 _ 404 rfl rfl (by decide) (by decide) (by decide)),
   (retryRequest_spec (fun _ => .error ⟨"Request failed with status code 404", none, some 404⟩)
      2 1000).1⟩

/-- C9: getSettledValue substitutes the default not only for a
rejected promise but for every fulfilled promise whose value is
falsy (null, undefined, false, 0, the empty string): in both cases
the caller receives exactly the default, so a fulfilled falsy result
is indistinguishable from a rejection. -/
theorem getSettledValue_falsy (v d : Json) (reason : String) (hv : truthy v = false) :
    getSettledValue (.fulfilled v) d = d
    ∧ getSettledValue (.rejected reason) d = d
    ∧ getSettledValue (.fulfilled v) d = getSettledValue (.rejected reason) d := by
  simp [getSettledValue, hv]

/-- C9 witness: a nonce promise fulfilled with the empty string
yields the default null, exactly as a rejected promise does. -/
theorem getSettledValue_falsy_witness :
    getSettledValue (.fulfilled (.jstr "")) .jnull = .jnull
    ∧ getSettledValue (.rejected "boom") .jnull = .jnull
    ∧ getSettledValue (.fulfilled (.jstr "")) .jnull = getSettledValue (.rejected "boom") .jnull :=
  getSettledValue_falsy (.jstr "") .jnull "boom" rfl

/-- C10: generateCacheKey is not injective: it drops null and
undefined arguments and rewrites every character outside
[a-zA-Z0-9\-_] to an underscore, so the distinct queries a b and
a_b map to the same key search:a_b and share one cache entry. -/
theorem generateCacheKey_not_injective :
    generateCacheKey "search" [.jstr "a b"] = generateCacheKey "search" [.jstr "a_b"]
    ∧ generateCacheKey "search" [.jstr "a b"] = "search:a_b"
    ∧ Json.jstr "a b" ≠ Json.jstr "a_b"
    ∧ generateCacheKey "anime" [.jnull, .jstr "x"] = generateCacheKey "anime" [.jstr "x"]
    ∧ generateCacheKey "anime" [.jundefined, .jstr "x"] = generateCacheKey "anime" [.jstr "x"]
    ∧ ∃ xs ys : List Json, xs ≠ ys ∧ generateCacheKey "search" xs = generateCacheKey "search" ys := by
  refine ⟨rfl, rfl, by simp, rfl, rfl, [.jstr "a b"], [.jstr "a_b"], by simp, rfl⟩

/-- C1 counterexample: when the nonce request fails, a page carrying
the quality tier 360p yields a mirror result with no binding at all
under the key 360p; the tier is not mapped to an empty sequence as
the claim states, its key is absent. -/
theorem extractMirrorLinks_nonceAbsent_cex :
    (([⟨"360p", [⟨"mirrorA", some "QQ=="⟩]⟩] : List QualityTab).map (fun t => jsTrim t.quality))
      = ["360p"]
    ∧ lookupKey (extractMirrorLinks (.error ⟨"network down", none, none⟩)
        [⟨"360p", [⟨"mirrorA", some "QQ=="⟩]⟩] (fun _ => none)) "360p" = none :=
  ⟨rfl, rfl⟩

/-- C1 as amended: if the nonce provider yields null, the quality
aggregator short-circuits, without throwing, to the empty result,
which contains no tier binding at all (rather than each tier bound to
an empty sequence). -/
theorem extractMirrorLinks_nonceAbsent (o : Except JsError HttpResp) (tabs : List QualityTab)
    (r : String → Option String) (h : getNonce o = .jnull) :
    extractMirrorLinks o tabs r = [] := by
  simp [extractMirrorLinks, h, truthy]

/-- C1 witness: a concrete failed nonce request with a nonempty page
produces the empty result. -/
theorem extractMirrorLinks_nonceAbsent_witness :
    extractMirrorLinks (.error ⟨"timeout of 25000ms exceeded", some "ECONNABORTED", none⟩)
      [⟨"480p", [⟨"mirrorC", some "Qw=="⟩]⟩] (fun _ => some "ignored") = [] :=
  extractMirrorLinks_nonceAbsent _ _ _ rfl

/-- C2 counterexample: a response without a data field yields no
nonce, and then a page carrying the quality tier 720p with one
mirror descriptor yields a mirror result whose 720p key is absent,
contradicting the unconditional tier-key invariant. -/
theorem extractMirrorLinks_tierKeys_cex :
    (([⟨"720p", [⟨"mirrorB", some "Qg=="⟩]⟩] : List QualityTab).map (fun t => jsTrim t.quality))
      = ["720p"]
    ∧ contentTruthy ⟨"mirrorB", some "Qg=="⟩ = true
    ∧ lookupKey (extractMirrorLinks (.ok ⟨200, .jobj [("success", .jbool true)]⟩)
        [⟨"720p", [⟨"mirrorB", some "Qg=="⟩]⟩] (fun _ => some "u")) "720p" = none :=
  ⟨rfl, rfl, rfl⟩

/-- C2 as amended: provided the nonce resolves to a truthy value
(and the page's trimmed tier labels are distinct, the uniqueness the
specification's data model already demands), every tier on the page
is bound in the result to exactly one entry per anchor with truthy
data-content, in page order: each entry carries the trimmed anchor
text and the resolver outcome, null included, so a tier whose
resolutions all fail keeps its key with url-null entries and a tier
with no descriptors keeps its key with the empty sequence. -/
theorem extractMirrorLinks_tierKeys (o : Except JsError HttpResp) (tabs : List QualityTab)
    (r : String → Option String) (hn : truthy (getNonce o) = true)
    (hnd : (tabs.map (fun t => jsTrim t.quality)).Nodup) :
    ∀ t ∈ tabs,
      lookupKey (extractMirrorLinks o tabs r) (jsTrim t.quality) =
        some ((t.anchors.filter contentTruthy).map (fun a => ⟨jsTrim a.text, r (contentVal a)⟩)) := by
  intro t ht
  simp only [extractMirrorLinks, hn, if_true]
  rw [lookupKey_foldl_setKey_mem (fun tab => jsTrim tab.quality)
    (fun tab => tab.anchors.filterMap (mirrorEntry r)) tabs [] t ht hnd]
  rw [filterMap_mirrorEntry]

/-- C2 witness: with a resolved nonce, a page with tiers 360p (one
resolving mirror, one failing mirror, one anchor without payload)
and 720p (no descriptors) is mapped tier by tier as the amended
claim states. -/
theorem extractMirrorLinks_tierKeys_witness :
    lookupKey (extractMirrorLinks (.ok ⟨200, .jobj [("data", .jstr "tok")]⟩)
        [⟨" 360p ", [⟨" mA ", some "QQ=="⟩, ⟨"mB", some "Qg=="⟩, ⟨"mC", none⟩]⟩, ⟨"720p", []⟩]
        (fun c => if c = "QQ==" then some "https://mirror.example/a" else none)) "360p"
      = some [⟨"mA", some "https://mirror.example/a"⟩, ⟨"mB", none⟩]
    ∧ lookupKey (extractMirrorLinks (.ok ⟨200, .jobj [("data", .jstr "tok")]⟩)
        [⟨" 360p ", [⟨" mA ", some "QQ=="⟩, ⟨"mB", some "Qg=="⟩, ⟨"mC", none⟩]⟩, ⟨"720p", []⟩]
        (fun c => if c = "QQ==" then some "https://mirror.example/a" else none)) "720p"
      = some [] := by
  have h := extractMirrorLinks_tierKeys (.ok ⟨200, .jobj [("data", .jstr "tok")]⟩)
    [⟨" 360p ", [⟨" mA ", some "QQ=="⟩, ⟨"mB", some "Qg=="⟩, ⟨"mC", none⟩]⟩, ⟨"720p", []⟩]
    (fun c => if c = "QQ==" then some "https://mirror.example/a" else none) rfl (by decide)
  refine ⟨?_, ?_⟩
  · have h1 := h ⟨" 360p ", [⟨" mA ", some "QQ=="⟩, ⟨"mB", some "Qg=="⟩, ⟨"mC", none⟩]⟩ (by simp)
    exact h1.trans (by rfl)
  · have h2 := h ⟨"720p", []⟩ (by simp)
    exact h2.trans (by rfl)

/-- C3: given a fetched episode document, getEpisodeStreaming fails
exactly when the trimmed page title is empty; the error is then the
Episode not found error, which handleError maps to HTTP 404 (the
status the route wrapper sends); and when a title is present the
operation returns the full result object for every outcome of the
nonce, mirror and download branches, rejections included — no branch
failure can fail the operation, and the route wrapper turns the
not-found error into a 404 response on a cache miss. -/
theorem getEpisodeStreaming_notFound_iff (page : EpisodePage) (nonceS : Settled Json)
    (mirrorS : Settled (List (String × List Mirror)))
    (downloadS : Settled (List (String × List DownloadEntry))) :
    ((∃ e, getEpisodeStreaming page nonceS mirrorS downloadS = .error e)
      ↔ jsTrim page.titleRaw = "")
    ∧ (∀ e, getEpisodeStreaming page nonceS mirrorS downloadS = .error e →
        e = episodeNotFoundError ∧ handleError e = ⟨404, "Content Not Found"⟩)
    ∧ (jsTrim page.titleRaw ≠ "" →
        getEpisodeStreaming page nonceS mirrorS downloadS =
          .ok ⟨jsTrim page.titleRaw, page.iframeSrc,
            getSettledObj mirrorS [], getSettledObj downloadS []⟩)
    ∧ (∀ key now, (withCache key (fun _ => none) (.error episodeNotFoundError) now).1.status = 404) := by
  by_cases h : jsTrim page.titleRaw = ""
  · refine ⟨?_, ?_, ?_, ?_⟩
    · simp [getEpisodeStreaming, h]
    · intro e he
      simp only [getEpisodeStreaming, h, if_pos] at he
      cases he
      exact ⟨rfl, rfl⟩
    · intro hne; exact absurd h hne
    · intro key now; rfl
  · refine ⟨?_, ?_, ?_, ?_⟩
    · simp [getEpisodeStreaming, h]
    · intro e he
      simp [getEpisodeStreaming, h] at he
    · intro _
      simp [getEpisodeStreaming, h]
    · intro key now; rfl

/-- C3 witness: a page whose heading is whitespace fails with the
not-found error (mapped to 404), and a page titled Episode 1 returns
the assembled object even though all three branches rejected. -/
theorem getEpisodeStreaming_notFound_iff_witness :
    getEpisodeStreaming ⟨"  ", some "https://frame.example/e"⟩ (.rejected "nonce down")
      (.rejected "mirrors down") (.rejected "downloads down") = .error episodeNotFoundError
    ∧ handleError episodeNotFoundError = ⟨404, "Content Not Found"⟩
    ∧ getEpisodeStreaming ⟨" Episode 1 ", some "https://frame.example/e"⟩ (.rejected "nonce down")
        (.rejected "mirrors down") (.rejected "downloads down") =
      .ok ⟨"Episode 1", some "https://frame.example/e", [], []⟩ := by
  refine ⟨?_, ?_, ?_⟩
  · have h := (getEpisodeStreaming_notFound_iff ⟨"  ", some "https://frame.example/e"⟩
      (.rejected "nonce down") (.rejected "mirrors down") (.rejected "downloads down")).1.mpr rfl
    obtain ⟨e, he⟩ := h
    have h2 := (getEpisodeStreaming_notFound_iff ⟨"  ", some "https://frame.example/e"⟩
      (.rejected "nonce down") (.rejected "mirrors down") (.rejected "downloads down")).2.1 e he
    rw [he, h2.1]
  · exact ((getEpisodeStreaming_notFound_iff ⟨"  ", some "https://frame.example/e"⟩
      (.rejected "nonce down") (.rejected "mirrors down") (.rejected "downloads down")).2.1
      episodeNotFoundError (by rfl)).2
  · exact ((getEpisodeStreaming_notFound_iff ⟨" Episode 1 ", some "https://frame.example/e"⟩
      (.rejected "nonce down") (.rejected "mirrors down") (.rejected "downloads down")).2.2.1
      (by decide)).trans rfl

/-- C5 counterexample: the client resolves the 400 status (it only
rejects at 500 and above), and a 400 response whose body carries a
data field makes getNonce return that field, not null, although 400
is not a 2xx status. -/
theorem getNonce_non2xx_cex :
    validateStatus 400 = true
    ∧ getNonce (.ok ⟨400, .jobj [("data", .jstr "tok")]⟩) = .jstr "tok"
    ∧ Json.jstr "tok" ≠ .jnull :=
  ⟨rfl, rfl, by simp⟩

/-- C5 as amended: getNonce never throws — it is total on every
outcome of the POST; a rejected request (network error, or status of
at least 500, which validateStatus rejects) yields null, a resolved
response with a falsy or absent data field yields null, and a
resolved response with a truthy data field yields that field
regardless of the HTTP status code, which getNonce never inspects. -/
theorem getNonce_spec (outcome : Except JsError HttpResp) :
    (∀ e, outcome = .error e → getNonce outcome = .jnull)
    ∧ (∀ resp, outcome = .ok resp → truthy (getField resp.body "data") = false →
        getNonce outcome = .jnull)
    ∧ (∀ resp, outcome = .ok resp → truthy (getField resp.body "data") = true →
        getNonce outcome = getField resp.body "data") := by
  refine ⟨?_, ?_, ?_⟩
  · intro e he; subst he; rfl
  · intro resp he hf; subst he; simp [getNonce, hf]
  · intro resp he ht; subst he; simp [getNonce, ht]

/-- C5 witness: a network error yields null, a body without a data
field yields null, and a 200 response with data yields the nonce. -/
theorem getNonce_spec_witness :
    getNonce (.error ⟨"socket hang up", none, none⟩) = .jnull
    ∧ getNonce (.ok ⟨200, .jobj [("success", .jbool true)]⟩) = .jnull
    ∧ getNonce (.ok ⟨200, .jobj [("data", .jstr "n1")]⟩) = .jstr "n1" :=
  ⟨(getNonce_spec (.error ⟨"socket hang up", none, none⟩)).1 _ rfl,
   (getNonce_spec (.ok ⟨200, .jobj [("success", .jbool true)]⟩)).2.1 _ rfl rfl,
   (getNonce_spec (.ok ⟨200, .jobj [("data", .jstr "n1")]⟩)).2.2 _ rfl rfl⟩

/-- C7: a request to the episode or anime route whose slug does not
match the anchored pattern over [a-zA-Z0-9\-_] — including the empty
string and non-string values — is answered with status 400 and a
body holding an error message and success false, and the handler
performs no action at all: no cache read, no cache write, no
upstream call. -/
theorem slugValidation_spec (slug : Json) (cache : String → Option Json)
    (upstream : Except JsError Json) (now : String)
    (h : ∀ s, slug = .jstr s → slugMatches s = false) :
    episodeRoute slug cache upstream now =
      (⟨400, .jobj [("error", .jstr "Invalid episode slug"), ("success", .jbool false)]⟩, [])
    ∧ animeRoute slug cache upstream now =
      (⟨400, .jobj [("error", .jstr "Invalid anime slug"), ("success", .jbool false)]⟩, []) := by
  have hv : isValidSlug slug = false := by
    cases slug with
    | jstr s => simp [isValidSlug, h s rfl]
    | jnull => rfl
    | jundefined => rfl
    | jbool b => rfl
    | jnum n => rfl
    | jarr xs => rfl
    | jobj f => rfl
  constructor
  · simp [episodeRoute, hv]
  · simp [animeRoute, hv]

/-- C7 witness: the slug a b (space rejected by the pattern) is
turned away by both routes with a 400 response and no actions. -/
theorem slugValidation_spec_witness :
    episodeRoute (.jstr "a b") (fun _ => none) (.ok .jnull) "ts" =
      (⟨400, .jobj [("error", .jstr "Invalid episode slug"), ("success", .jbool false)]⟩, [])
    ∧ animeRoute (.jstr "a b") (fun _ => none) (.ok .jnull) "ts" =
      (⟨400, .jobj [("error", .jstr "Invalid anime slug"), ("success", .jbool false)]⟩, []) :=
  slugValidation_spec (.jstr "a b") (fun _ => none) (.ok .jnull) "ts"
    (fun s hs => by cases hs; rfl)

/-- C4 counterexample: the token NDI= decodes to the text 42, which
JSON.parse accepts as the number 42 — a JSON value that is not an
object — without throwing; the request then proceeds (spreading a
number contributes no properties), and with an upstream response
whose data field encodes an iframe fragment the call returns the
extracted URL, not null, although the payload did not decode to a
JSON object. -/
theorem fetchIframeUrl_nonObject_cex :
    isObj (.jnum 42) = false
    ∧ fetchIframeUrl (.ok (.jnum 42))
        (.ok ⟨200, .jobj [("data", .jstr (String.mk (base64encodeBytes (utf8BytesAscii
          "<iframe src=\"https://stream.example/v\"></iframe>"))))]⟩)
        = some "https://stream.example/v"
    ∧ some "https://stream.example/v" ≠ (none : Option String) :=
  ⟨rfl, rfl, by simp⟩

/-- C4 as amended: fetchIframeUrl is total (never throws to its
caller) and returns null whenever the payload text fails to parse as
JSON (the thrown SyntaxError is caught), the POST rejects, the
response body's data field is absent or falsy, or the decoded HTML
fragment contains no src="..." match; when the POST resolves with a
truthy string data field whose decoded fragment does contain a
match, the first captured src value is returned. A payload that
parses to a non-object JSON value is not a failure: the request
proceeds (see the counterexample). -/
theorem fetchIframeUrl_nullOnFailure (parsed : Except JsError Json)
    (post : Except JsError HttpResp) :
    (∀ e, fetchIframeUrl (.error e) post = none)
    ∧ (∀ e, fetchIframeUrl parsed (.error e) = none)
    ∧ (∀ p resp, parsed = .ok p → post = .ok resp →
        truthy (getField resp.body "data") = false → fetchIframeUrl parsed post = none)
    ∧ (∀ p resp s, parsed = .ok p → post = .ok resp →
        getField resp.body "data" = .jstr s →
        scanSrc (asciiDecode (base64decodeBytes s.data)) = none →
        fetchIframeUrl parsed post = none)
    ∧ (∀ p resp s cap, parsed = .ok p → post = .ok resp →
        getField resp.body "data" = .jstr s → s ≠ "" →
        scanSrc (asciiDecode (base64decodeBytes s.data)) = some cap →
        fetchIframeUrl parsed post = some (String.mk cap)) := by
  refine ⟨?_, ?_, ?_, ?_, ?_⟩
  · intro e; rfl
  · intro e; cases parsed <;> rfl
  · intro p resp hp hr hf
    subst hp; subst hr
    simp [fetchIframeUrl, hf]
  · intro p resp s hp hr hd hscan
    subst hp; subst hr
    by_cases hs : s = ""
    · subst hs
      simp [fetchIframeUrl, hd, truthy]
    · simp [fetchIframeUrl, hd, truthy, hs, hscan]
  · intro p resp s cap hp hr hd hs hscan
    subst hp; subst hr
    simp [fetchIframeUrl, hd, truthy, hs, hscan]

/-- C4 witness: one concrete run of each branch — parse failure,
network failure, falsy data field, fragment without a src attribute
(aGVsbG8= decodes to hello), and a successful resolution. -/
theorem fetchIframeUrl_nullOnFailure_witness :
    fetchIframeUrl (.error ⟨"Unexpected token", none, none⟩) (.ok ⟨200, .jobj []⟩) = none
    ∧ fetchIframeUrl (.ok (.jobj [("id", .jstr "x")]))
        (.error ⟨"timeout of 25000ms exceeded", some "ECONNABORTED", none⟩) = none
    ∧ fetchIframeUrl (.ok (.jobj [("id", .jstr "x")]))
        (.ok ⟨200, .jobj [("data", .jbool false)]⟩) = none
    ∧ fetchIframeUrl (.ok (.jobj [("id", .jstr "x")]))
        (.ok ⟨200, .jobj [("data", .jstr "aGVsbG8=")]⟩) = none
    ∧ fetchIframeUrl (.ok (.jobj [("id", .jstr "x")]))
        (.ok ⟨200, .jobj [("data", .jstr (String.mk (base64encodeBytes (utf8BytesAscii
          "x src=\"https://s.example/a\" y"))))]⟩) = some "https://s.example/a" := by
  refine ⟨?_, ?_, ?_, ?_, ?_⟩
  · exact (fetchIframeUrl_nullOnFailure (.error ⟨"Unexpected token", none, none⟩)
      (.ok ⟨200, .jobj []⟩)).1 _
  · exact (fetchIframeUrl_nullOnFailure (.ok (.jobj [("id", .jstr "x")]))
      (.error ⟨"timeout of 25000ms exceeded", some "ECONNABORTED", none⟩)).2.1 _
  · exact (fetchIframeUrl_nullOnFailure (.ok (.jobj [("id", .jstr "x")]))
      (.ok ⟨200, .jobj [("data", .jbool false)]⟩)).2.2.1 _ _ rfl rfl rfl
  · exact (fetchIframeUrl_nullOnFailure (.ok (.jobj [("id", .jstr "x")]))
      (.ok ⟨200, .jobj [("data", .jstr "aGVsbG8=")]⟩)).2.2.2.1 _ _ "aGVsbG8=" rfl rfl rfl rfl
  · exact (fetchIframeUrl_nullOnFailure (.ok (.jobj [("id", .jstr "x")]))
      (.ok ⟨200, .jobj [("data", .jstr (String.mk (base64encodeBytes (utf8BytesAscii
        "x src=\"https://s.example/a\" y"))))]⟩)).2.2.2.2 _ _ _
      ("https://s.example/a").data rfl rfl rfl (by decide) rfl

/-- b64Index inverts b64Char on every sextet. -/
theorem b64Index_b64Char : ∀ n, n < 64 → b64Index (b64Char n) = some n := by decide

/-- Padding characters are skipped by the decoder. -/
theorem b64Index_pad : b64Index '=' = none := by decide

/-- Sextets built from bytes are below 64. -/
theorem bytesToSextets_lt : ∀ l : List Nat, (∀ x ∈ l, x < 256) →
    ∀ s ∈ bytesToSextets l, s < 64 := by
  intro l
  induction l using bytesToSextets.induct with
  | case1 => intro _ s hs; cases hs
  | case2 a =>
    intro h s hs
    have ha : a < 256 := h a (by simp)
    simp [bytesToSextets] at hs
    rcases hs with h1 | h1 <;> omega
  | case3 a b =>
    intro h s hs
    have ha : a < 256 := h a (by simp)
    have hb : b < 256 := h b (by simp)
    simp [bytesToSextets] at hs
    rcases hs with h1 | h1 | h1 <;> omega
  | case4 a b c rest ih =>
    intro h s hs
    have ha : a < 256 := h a (by simp)
    have hb : b < 256 := h b (by simp)
    have hc : c < 256 := h c (by simp)
    simp [bytesToSextets] at hs
    rcases hs with h1 | h1 | h1 | h1 | h1
    · omega
    · omega
    · omega
    · omega
    · exact ih (fun x hx => h x (by simp [hx])) s h1

/-- Repacking the sextets of a byte sequence restores the bytes. -/
theorem sextets_bytes_rt : ∀ l : List Nat, (∀ x ∈ l, x < 256) →
    sextetsToBytes (bytesToSextets l) = l := by
  intro l
  induction l using bytesToSextets.induct with
  | case1 => intro _; rfl
  | case2 a =>
    intro h
    have ha : a < 256 := h a (by simp)
    simp [bytesToSextets, sextetsToBytes]
    omega
  | case3 a b =>
    intro h
    have ha : a < 256 := h a (by simp)
    have hb : b < 256 := h b (by simp)
    simp [bytesToSextets, sextetsToBytes]
    omega
  | case4 a b c rest ih =>
    intro h
    have ha : a < 256 := h a (by simp)
    have hb : b < 256 := h b (by simp)
    have hc : c < 256 := h c (by simp)
    have hr : ∀ x ∈ rest, x < 256 := fun x hx => h x (by simp [hx])
    simp [bytesToSextets, sextetsToBytes, ih hr]
    omega

/-- Decoding the alphabet image of a sextet sequence restores it. -/
theorem filterMap_b64Char : ∀ sx : List Nat, (∀ s ∈ sx, s < 64) →
    List.filterMap b64Index (sx.map b64Char) = sx := by
  intro sx
  induction sx with
  | nil => intro _; rfl
  | cons s rest ih =>
    intro h
    have hs : s < 64 := h s (by simp)
    simp only [List.map_cons, List.filterMap_cons, b64Index_b64Char s hs]
    rw [ih (fun x hx => h x (by simp [hx]))]

/-- Decoding drops every padding character. -/
theorem filterMap_pad : ∀ k : Nat, List.filterMap b64Index (List.replicate k '=') = [] := by
  intro k
  induction k with
  | zero => rfl
  | succ n ih => simp [List.replicate_succ, List.filterMap_cons, b64Index_pad, ih]

/-- base64 decoding inverts base64 encoding on byte sequences. -/
theorem base64_rt (l : List Nat) (h : ∀ x ∈ l, x < 256) :
    base64decodeBytes (base64encodeBytes l) = l := by
  unfold base64decodeBytes base64encodeBytes
  rw [List.filterMap_append, filterMap_b64Char _ (bytesToSextets_lt l h), filterMap_pad,
    List.append_nil]
  exact sextets_bytes_rt l h

/-- Text decoding inverts byte encoding on ASCII strings. -/
theorem asciiDecode_utf8 (s : String) (h : ∀ c ∈ s.data, c.toNat < 128) :
    asciiDecode (utf8BytesAscii s) = s.data := by
  unfold asciiDecode utf8BytesAscii
  rw [List.map_map]
  have hid : ∀ c ∈ s.data,
      ((fun b => if b < 128 then Char.ofNat b else Char.ofNat 0xFFFD) ∘ Char.toNat) c = id c := by
    intro c hc
    simp only [Function.comp_apply, h c hc, if_pos, id]
    exact Char.ofNat_toNat c
  rw [List.map_congr_left hid, List.map_id]

/-- takeWhile keeps a quote-free segment whole. -/
theorem takeWhile_no_quote (k tail : List Char) (hk : ∀ c ∈ k, c ≠ '"') :
    List.takeWhile (fun c => decide (c ≠ '"')) (k ++ '"' :: tail) = k := by
  induction k with
  | nil => simp [List.takeWhile_cons]
  | cons a as ih =>
    have ha : decide (a ≠ '"') = true := decide_eq_true (hk a (by simp))
    simp only [List.cons_append, List.takeWhile_cons]
    rw [if_pos ha, ih (fun c hc => hk c (by simp [hc]))]

/-- dropWhile stops exactly at the closing quote. -/
theorem dropWhile_no_quote (k tail : List Char) (hk : ∀ c ∈ k, c ≠ '"') :
    List.dropWhile (fun c => decide (c ≠ '"')) (k ++ '"' :: tail) = '"' :: tail := by
  induction k with
  | nil => simp [List.dropWhile_cons]
  | cons a as ih =>
    have ha : decide (a ≠ '"') = true := decide_eq_true (hk a (by simp))
    simp only [List.cons_append, List.dropWhile_cons]
    rw [if_pos ha, ih (fun c hc => hk c (by simp [hc]))]

/-- parseStringLit recovers a quote-free literal and the rest of the
input. -/
theorem parseStringLit_round (k tail : List Char) (hk : ∀ c ∈ k, c ≠ '"') :
    parseStringLit ('"' :: (k ++ '"' :: tail)) = some (k, tail) := by
  simp only [parseStringLit]
  rw [dropWhile_no_quote k tail hk, takeWhile_no_quote k tail hk]
  rfl

/-- parseMembers recovers a nonempty serialised member list when the
fuel covers the member count and no string contains a quote. -/
theorem parseMembers_round : ∀ (m : List (String × String)) (fuel : Nat), m ≠ [] →
    m.length ≤ fuel →
    (∀ kv ∈ m, (∀ c ∈ kv.1.data, c ≠ '"') ∧ (∀ c ∈ kv.2.data, c ≠ '"')) →
    parseMembers fuel (jsonBody m ++ ['\x7d']) = some m := by
  intro m
  induction m with
  | nil => intro fuel hne; exact absurd rfl hne
  | cons kv rest ih =>
    intro fuel _ hlen hsafe
    obtain ⟨f, rfl⟩ : ∃ f, fuel = f + 1 := ⟨fuel - 1, by simp at hlen; omega⟩
    have hks := (hsafe kv (by simp)).1
    have hvs := (hsafe kv (by simp)).2
    cases rest with
    | nil =>
      have hshape : jsonBody [kv] ++ ['\x7d'] =
          '"' :: (kv.1.data ++ '"' :: (':' :: ('"' :: (kv.2.data ++ '"' :: ['\x7d'])))) := by
        simp [jsonBody, encodePair]
      rw [hshape]
      simp only [parseMembers]
      rw [parseStringLit_round kv.1.data _ hks]
      simp only []
      rw [parseStringLit_round kv.2.data _ hvs]
      rfl
    | cons kv2 rest2 =>
      have hshape : jsonBody (kv :: kv2 :: rest2) ++ ['\x7d'] =
          '"' :: (kv.1.data ++ '"' :: (':' :: ('"' :: (kv.2.data ++ '"' ::
            (',' :: (jsonBody (kv2 :: rest2) ++ ['\x7d'])))))) := by
        simp [jsonBody, encodePair]
      rw [hshape]
      simp only [parseMembers]
      rw [parseStringLit_round kv.1.data _ hks]
      simp only []
      rw [parseStringLit_round kv.2.data _ hvs]
      simp only []
      rw [ih f (by simp) (by simp at hlen ⊢; omega) (fun p hp => hsafe p (by simp [hp]))]
      rfl

/-- Each member contributes at least one character to the body, so
the body length is fuel enough for the parser. -/
theorem jsonBody_length_ge : ∀ m : List (String × String), m.length ≤ (jsonBody m).length := by
  intro m
  induction m with
  | nil => simp [jsonBody]
  | cons kv rest ih =>
    cases rest with
    | nil => simp [jsonBody, encodePair]
    | cons kv2 r2 =>
      simp only [jsonBody, encodePair] at ih ⊢
      simp only [List.length_cons, List.length_append, List.length_cons] at ih ⊢
      omega

/-- asciiSafe strings are ASCII. -/
theorem asciiSafe_lt (s : String) (h : asciiSafe s = true) : ∀ c ∈ s.data, c.toNat < 128 := by
  intro c hc
  have := List.all_eq_true.mp h c hc
  simp only [Bool.and_eq_true, decide_eq_true_eq] at this
  omega

/-- asciiSafe strings contain no quote character. -/
theorem asciiSafe_no_quote (s : String) (h : asciiSafe s = true) : ∀ c ∈ s.data, c ≠ '"' := by
  intro c hc
  have := List.all_eq_true.mp h c hc
  simp only [Bool.and_eq_true, decide_eq_true_eq] at this
  exact this.1.2

/-- The serialised member list of a safe object is ASCII. -/
theorem jsonBody_ascii : ∀ m : List (String × String),
    (∀ kv ∈ m, asciiSafe kv.1 = true ∧ asciiSafe kv.2 = true) →
    ∀ c ∈ jsonBody m, c.toNat < 128 := by
  intro m
  induction m with
  | nil => intro _ c hc; cases hc
  | cons kv rest ih =>
    intro hsafe
    have hk := asciiSafe_lt kv.1 (hsafe kv (by simp)).1
    have hv := asciiSafe_lt kv.2 (hsafe kv (by simp)).2
    have hpair : ∀ d ∈ encodePair kv, d.toNat < 128 := by
      simp only [encodePair, List.forall_mem_cons, List.forall_mem_append,
        List.forall_mem_singleton]
      exact ⟨⟨⟨by decide, hk⟩, by decide, by decide, by decide, hv⟩, by decide, by simp⟩
    cases rest with
    | nil => exact hpair
    | cons kv2 r2 =>
      simp only [jsonBody, List.forall_mem_append, List.forall_mem_cons]
      exact ⟨hpair, by decide, ih (fun p hp => hsafe p (by simp [hp]))⟩

/-- The full serialisation of a safe object is ASCII. -/
theorem serializeFlat_ascii (m : List (String × String))
    (hsafe : ∀ kv ∈ m, asciiSafe kv.1 = true ∧ asciiSafe kv.2 = true) :
    ∀ c ∈ (serializeFlat m).data, c.toNat < 128 := by
  show ∀ c ∈ '\x7b' :: (jsonBody m ++ ['\x7d']), c.toNat < 128
  simp only [List.forall_mem_cons, List.forall_mem_append, List.forall_mem_singleton]
  exact ⟨by decide, jsonBody_ascii m hsafe, by decide⟩

/-- Parsing inverts serialisation for flat objects without quote
characters. -/
theorem parseFlat_serializeFlat (m : List (String × String))
    (hsafe : ∀ kv ∈ m, (∀ c ∈ kv.1.data, c ≠ '"') ∧ (∀ c ∈ kv.2.data, c ≠ '"')) :
    parseFlat (serializeFlat m) = some m := by
  cases m with
  | nil => rfl
  | cons kv rest =>
    obtain ⟨t, ht⟩ : ∃ t, jsonBody (kv :: rest) = '"' :: t := by
      cases rest <;> exact ⟨_, rfl⟩
    simp only [parseFlat, serializeFlat]
    rw [ht]
    simp only [List.cons_append]
    show parseMembers ('"' :: (t ++ ['\x7d'])).length ('"' :: (t ++ ['\x7d'])) = some (kv :: rest)
    rw [show ('"' : Char) :: (t ++ ['\x7d']) = ('"' :: t) ++ ['\x7d'] from rfl, ← ht]
    refine parseMembers_round (kv :: rest) _ (by simp) ?_ hsafe
    have := jsonBody_length_ge (kv :: rest)
    simp only [List.length_append, List.length_cons] at this ⊢
    omega

/-- C8: the payload decoder satisfies the round-trip law: for every
flat JSON object (unique keys) whose keys and values are ASCII-safe —
printable ASCII with no quote or backslash, so its serialisation
needs no escapes — base64-encoding the UTF-8 bytes of its
serialisation and then applying the decoder (base64-decode, text
decode, JSON parse) reproduces the original key/value map. -/
theorem payloadDecoder_roundTrip (m : List (String × String))
    (hsafe : ∀ kv ∈ m, asciiSafe kv.1 = true ∧ asciiSafe kv.2 = true)
    (_hnd : (m.map Prod.fst).Nodup) :
    decodePayload (String.mk (base64encodeBytes (utf8BytesAscii (serializeFlat m)))) = some m := by
  unfold decodePayload
  have hascii : ∀ c ∈ (serializeFlat m).data, c.toNat < 128 := serializeFlat_ascii m hsafe
  have hbytes : ∀ x ∈ utf8BytesAscii (serializeFlat m), x < 256 := by
    intro x hx
    simp only [utf8BytesAscii, List.mem_map] at hx
    obtain ⟨c, hc, rfl⟩ := hx
    have := hascii c hc
    omega
  have h1 : (String.mk (base64encodeBytes (utf8BytesAscii (serializeFlat m)))).data
      = base64encodeBytes (utf8BytesAscii (serializeFlat m)) := rfl
  rw [h1, base64_rt _ hbytes, asciiDecode_utf8 _ hascii]
  have h2 : String.mk (serializeFlat m).data = serializeFlat m := rfl
  rw [h2]
  exact parseFlat_serializeFlat m (fun kv hkv =>
    ⟨asciiSafe_no_quote _ (hsafe kv hkv).1, asciiSafe_no_quote _ (hsafe kv hkv).2⟩)

/-- C8 witness: the two-field object with keys id and i round-trips
through the encoder and the decoder. -/
theorem payloadDecoder_roundTrip_witness :
    decodePayload (String.mk (base64encodeBytes (utf8BytesAscii
      (serializeFlat [("id", "abc123"), ("i", "9")])))) = some [("id", "abc123"), ("i", "9")] :=
  payloadDecoder_roundTrip [("id", "abc123"), ("i", "9")] (by decide) (by decide)

end Otakudesu
